import Mathlib

/-!
Shallow embedding of the ExpenseTracker application (`main.py`).

The application is a CRUD service over a single SQLite table `expenses`
with columns `id` (integer primary key), `description` (text), `amount`
(float), `date` (date).  The schema declares the three value columns
without `nullable=False`, so a row field is embedded as an `Option`;
every handler that writes a row supplies all three values, which is what
the populated-fields invariant asserts.

Each HTTP handler is embedded as a pure function from the stored table
to a pair of (response value, table after the request).  HTTP error
responses raised via `HTTPException` are embedded as `Except.error`
carrying the status code.  Monetary amounts are embedded as exact
rationals `Rat` standing for the float `amount` column.
-/

namespace ExpenseTracker

/-- A calendar date (year, month, day) as stored in the `date` column and
carried by `datetime.date` values. -/
structure CalDate where
  year : Nat
  month : Nat
  day : Nat
deriving DecidableEq

/-- One row of the `expenses` table (SQLAlchemy model `Expense`,
`main.py` lines 19-25).  The three value columns are declared without
`nullable=False`, hence `Option` fields; the handlers always write
`some` values. -/
structure ExpenseRow where
  id : Nat
  description : Option String
  amount : Option Rat
  date : Option CalDate
deriving DecidableEq

/-- The stored `expenses` table, rows in natural storage order. -/
abbrev Table := List ExpenseRow

/-- Pydantic request model `ExpenseCreate` (`main.py` lines 28-31):
a well-typed create/update payload. -/
structure ExpenseCreate where
  description : String
  amount : Rat
  date : CalDate
deriving DecidableEq

/-- Pydantic model `ExpenseUpdate` (`main.py` lines 33-34): inherits the
fields of `ExpenseCreate` unchanged. -/
abbrev ExpenseUpdate := ExpenseCreate

/-- Pydantic response model `ExpenseRead` (`main.py` lines 36-39):
id plus the three value fields, all required. -/
structure ExpenseRead where
  id : Nat
  description : String
  amount : Rat
  date : CalDate
deriving DecidableEq

/-- `ExpenseRead.model_validate(db_expense)`: validation of a row against
the response model succeeds exactly when all three value columns are
populated. -/
def modelValidate (e : ExpenseRow) : Option ExpenseRead :=
  match e.description, e.amount, e.date with
  | some d, some a, some dt => some ⟨e.id, d, a, dt⟩
  | _, _, _ => none

/-- The ids present in the table, in row order. -/
def tableIds (t : Table) : List Nat := t.map ExpenseRow.id

/-- The id the storage engine assigns to a newly inserted row.  Models
SQLite's documented rowid assignment for an `INTEGER PRIMARY KEY`
column left unset on insert: one more than the largest id currently in
the table, and `1` for an empty table. -/
def nextId (t : Table) : Nat := (tableIds t).foldr max 0 + 1

/-- `db.query(Expense).filter(Expense.id == expense_id).first()`:
the first row of the table whose id equals the given one. -/
def queryFirstById (i : Nat) (t : Table) : Option ExpenseRow :=
  (t.filter (fun e => e.id == i)).head?

/-- `db.query(Expense).all()`: every row in storage order. -/
def queryAllRows (t : Table) : List ExpenseRow := t

/-- `db.query(func.sum(Expense.amount)).scalar()` over the given rows:
SQL `SUM` ignores NULL amounts and yields NULL when no non-NULL amount
exists among the rows. -/
def sqlSumAmount (rows : List ExpenseRow) : Option Rat :=
  let vals := rows.filterMap ExpenseRow.amount
  if vals.isEmpty then none else some vals.sum

/-- Python `x or 0.0` applied to an optional number: `None` and `0.0`
are falsy, any other number is returned unchanged. -/
def orZero : Option Rat → Rat
  | none => 0
  | some x => if x = 0 then 0 else x

/-- The SQL filter
`extract('month', date) == current_month AND extract('year', date) == current_year`
(`main.py` lines 159-162): a row passes iff its date is non-NULL and has
the month and year of `today` (extracting from a NULL date yields NULL,
which satisfies neither equality). -/
def inMonth (today : CalDate) (e : ExpenseRow) : Bool :=
  match e.date with
  | some d => d.month == today.month && d.year == today.year
  | none => false

/-- Replace the fields of the first row with the given id by the payload
values, as the update handlers do by mutating the fetched row and
committing. -/
def setFirstById (i : Nat) (p : ExpenseUpdate) : Table → Table
  | [] => []
  | e :: es =>
    if e.id == i then
      { e with description := some p.description, amount := some p.amount,
               date := some p.date } :: es
    else e :: setFirstById i p es

/-- Remove the first row with the given id, as `db.delete(db_expense)`
followed by `db.commit()` does for the fetched row. -/
def removeFirstById (i : Nat) : Table → Table
  | [] => []
  | e :: es => if e.id == i then es else e :: removeFirstById i es

/-- `POST /api/expenses/` (`create_expense_api`, `main.py` lines 142-148):
insert a row built from the payload with a storage-assigned id, then
return it through `ExpenseRead.model_validate`. -/
def create_expense_api (p : ExpenseCreate) (t : Table) :
    Option ExpenseRead × Table :=
  let row : ExpenseRow :=
    ⟨nextId t, some p.description, some p.amount, some p.date⟩
  (modelValidate row, t ++ [row])

/-- `GET /api/expenses/` (`read_expenses_api`, `main.py` lines 150-153):
all rows, each passed through `ExpenseRead.model_validate`. -/
def read_expenses_api (t : Table) : List (Option ExpenseRead) × Table :=
  ((queryAllRows t).map modelValidate, t)

/-- `GET /api/expenses/total` (`total_expenses_api`, `main.py`
lines 155-163): the SQL sum of `amount` over rows in the current
calendar month and year, with `total or 0.0` applied; `today` stands
for `date.today()` at call time. -/
def total_expenses_api (today : CalDate) (t : Table) : Rat × Table :=
  (orZero (sqlSumAmount ((queryAllRows t).filter (inMonth today))), t)

/-- `PUT /api/expenses/{expense_id}` (`update_expense_api`, `main.py`
lines 165-179): 404 if no row has the id, otherwise replace the three
value fields of that row and return it through `model_validate`. -/
def update_expense_api (i : Nat) (p : ExpenseUpdate) (t : Table) :
    Except Nat (Option ExpenseRead) × Table :=
  match queryFirstById i t with
  | none => (.error 404, t)
  | some e =>
    (.ok (modelValidate
      { e with description := some p.description, amount := some p.amount,
               date := some p.date }),
     setFirstById i p t)

/-- `DELETE /api/expenses/{expense_id}` (`delete_expense_api`, `main.py`
lines 181-188): 404 if no row has the id, otherwise remove that row and
return the confirmation payload. -/
def delete_expense_api (i : Nat) (t : Table) : Except Nat String × Table :=
  match queryFirstById i t with
  | none => (.error 404, t)
  | some _ => (.ok "Expense deleted", removeFirstById i t)

/-- `GET /` (`read_root`, `main.py` lines 75-83): render the list of all
rows together with `db.query(func.sum(Expense.amount)).scalar() or 0.0`. -/
def read_root (t : Table) : (List ExpenseRow × Rat) × Table :=
  ((queryAllRows t, orZero (sqlSumAmount (queryAllRows t))), t)

/-- `GET /update/{expense_id}` (`update_expense_form`, `main.py`
lines 102-111): 404 if no row has the id, otherwise render the
pre-filled form for that row. -/
def update_expense_form (i : Nat) (t : Table) :
    Except Nat ExpenseRow × Table :=
  match queryFirstById i t with
  | none => (.error 404, t)
  | some e => (.ok e, t)

/-- `POST /add` (`add_expense`, `main.py` lines 89-100) after successful
form parsing: insert the row and answer with a 303 redirect to `/`. -/
def add_expense (p : ExpenseCreate) (t : Table) : Nat × Table :=
  let row : ExpenseRow :=
    ⟨nextId t, some p.description, some p.amount, some p.date⟩
  (303, t ++ [row])

/-- `POST /update/{expense_id}` (`update_expense`, `main.py`
lines 113-129) after successful form parsing: 404 if no row has the id,
otherwise replace the three value fields and answer with a 303
redirect. -/
def update_expense (i : Nat) (p : ExpenseUpdate) (t : Table) :
    Except Nat Nat × Table :=
  match queryFirstById i t with
  | none => (.error 404, t)
  | some _ => (.ok 303, setFirstById i p t)

/-- `POST /delete/{expense_id}` (`delete_expense`, `main.py`
lines 131-138): 404 if no row has the id, otherwise remove that row and
answer with a 303 redirect. -/
def delete_expense (i : Nat) (t : Table) : Except Nat Nat × Table :=
  match queryFirstById i t with
  | none => (.error 404, t)
  | some _ => (.ok 303, removeFirstById i t)

/-! ### Request-body validation, modelled from the spec

The parsing of JSON bodies and form fields into typed payloads is done
by the FastAPI/pydantic framework layer, outside this repository's
source; only the field declarations (`ExpenseCreate`, `Form(...)`) live
in `main.py`. -/

/-- A raw value arriving in a JSON body or form field: a text value or
a numeric value. -/
inductive RawVal
  | str : String → RawVal
  | num : Rat → RawVal
deriving DecidableEq

/-- A raw request body for the write endpoints: each of the three
fields either absent or a raw value. -/
structure RawInput where
  description : Option RawVal
  amount : Option RawVal
  date : Option RawVal
deriving DecidableEq

/-- Numeric value of a list of decimal digit characters. -/
def digitsToNat (cs : List Char) : Nat :=
  cs.foldl (fun n c => 10 * n + (c.toNat - 48)) 0

/-- Modelled from the spec: "amount must parse as a number" — an
unsigned decimal numeral, digits with an optional fractional part. -/
def parseUnsigned (cs : List Char) : Option Rat :=
  match cs.span Char.isDigit with
  | (ds, []) => if ds.isEmpty then none else some (digitsToNat ds : Rat)
  | (ds, '.' :: fs) =>
    if ds.isEmpty || fs.isEmpty || !(fs.all Char.isDigit) then none
    else some ((digitsToNat ds : Rat) +
               (digitsToNat fs : Rat) / ((10 : Rat) ^ fs.length))
  | _ => none

/-- Modelled from the spec: a decimal number with an optional leading
minus sign. -/
def parseNumber (s : String) : Option Rat :=
  match s.data with
  | '-' :: rest => (parseUnsigned rest).map (fun q => -q)
  | cs => parseUnsigned cs

/-- Leap-year rule of the Gregorian calendar. -/
def isLeap (y : Nat) : Bool :=
  (y % 4 == 0 && y % 100 != 0) || y % 400 == 0

/-- Number of days in the given month of the given year. -/
def daysInMonth (y m : Nat) : Nat :=
  if m == 2 then (if isLeap y then 29 else 28)
  else if m == 4 || m == 6 || m == 9 || m == 11 then 30
  else 31

/-- Modelled from the spec: "date must parse as an ISO calendar date" —
`YYYY-MM-DD` with a valid month and day. -/
def parseIsoDateChars (cs : List Char) : Option CalDate :=
  match cs.span Char.isDigit with
  | (ys, '-' :: rest1) =>
    match rest1.span Char.isDigit with
    | (ms, '-' :: rest2) =>
      match rest2.span Char.isDigit with
      | (ds, []) =>
        let y := digitsToNat ys
        let m := digitsToNat ms
        let d := digitsToNat ds
        if ys.length == 4 && ms.length == 2 && ds.length == 2 &&
           1 ≤ m && m ≤ 12 && 1 ≤ d && d ≤ daysInMonth y m then
          some ⟨y, m, d⟩
        else none
      | _ => none
    | _ => none
  | _ => none

/-- Modelled from the spec: ISO calendar date parsing of a string. -/
def parseIsoDate (s : String) : Option CalDate :=
  parseIsoDateChars s.data

/-- Modelled from the spec: the numeric value of a raw amount — a
numeric value is taken as is, a text value must parse as a number. -/
def amountVal : RawVal → Option Rat
  | .num q => some q
  | .str s => parseNumber s

/-- Modelled from the spec: the calendar-date value of a raw date field —
only a text value that parses as an ISO date is accepted. -/
def dateVal : RawVal → Option CalDate
  | .str s => parseIsoDate s
  | .num _ => none

/-- Modelled from the spec: FastAPI/pydantic validation of a raw write
request against `ExpenseCreate` — description must be text, amount must
parse as a number, date must parse as an ISO calendar date; anything
else is rejected with status 422 before any storage access. -/
def validate (r : RawInput) : Except Nat ExpenseCreate :=
  match r.description, r.amount.bind amountVal, r.date.bind dateVal with
  | some (.str d), some q, some dt => .ok ⟨d, q, dt⟩
  | _, _, _ => .error 422

/-- `POST /api/expenses/` on a raw body: validation, then the handler. -/
def create_expense_api_raw (r : RawInput) (t : Table) :
    Except Nat (Option ExpenseRead) × Table :=
  match validate r with
  | .error c => (.error c, t)
  | .ok p =>
    let res := create_expense_api p t
    (.ok res.1, res.2)

/-- `POST /add` on raw form fields: validation, then the handler. -/
def add_expense_raw (r : RawInput) (t : Table) : Except Nat Nat × Table :=
  match validate r with
  | .error c => (.error c, t)
  | .ok p =>
    let res := add_expense p t
    (.ok res.1, res.2)

/-- `PUT /api/expenses/{expense_id}` on a raw body: validation, then
the handler. -/
def update_expense_api_raw (i : Nat) (r : RawInput) (t : Table) :
    Except Nat (Except Nat (Option ExpenseRead)) × Table :=
  match validate r with
  | .error c => (.error c, t)
  | .ok p =>
    let res := update_expense_api i p t
    (.ok res.1, res.2)

/-- `POST /update/{expense_id}` on raw form fields: validation, then
the handler. -/
def update_expense_raw (i : Nat) (r : RawInput) (t : Table) :
    Except Nat (Except Nat Nat) × Table :=
  match validate r with
  | .error c => (.error c, t)
  | .ok p =>
    let res := update_expense i p t
    (.ok res.1, res.2)

/-- Malformed raw input in the sense of the spec: a required field
missing, a present amount that is not numeric, or a present date that
does not parse as an ISO calendar date. -/
def Malformed (r : RawInput) : Prop :=
  (r.description = none ∨ r.amount = none ∨ r.date = none)
  ∨ (∃ s, r.amount = some (.str s) ∧ parseNumber s = none)
  ∨ (∃ q, r.date = some (.num q))
  ∨ (∃ s, r.date = some (.str s) ∧ parseIsoDate s = none)

/-! ### Sequences of operations -/

/-- One request against the service: the state-relevant content of each
endpoint (payloads already validated for the write endpoints; reads
carry their inputs so that every endpoint appears). -/
inductive Op
  | createOp : ExpenseCreate → Op
  | addOp : ExpenseCreate → Op
  | updateApiOp : Nat → ExpenseUpdate → Op
  | updateFormOp : Nat → ExpenseUpdate → Op
  | deleteApiOp : Nat → Op
  | deleteFormOp : Nat → Op
  | listOp : Op
  | rootOp : Op
  | getFormOp : Nat → Op
  | totalOp : CalDate → Op

/-- The table after serving one request. -/
def applyOp (t : Table) : Op → Table
  | .createOp p => (create_expense_api p t).2
  | .addOp p => (add_expense p t).2
  | .updateApiOp i p => (update_expense_api i p t).2
  | .updateFormOp i p => (update_expense i p t).2
  | .deleteApiOp i => (delete_expense_api i t).2
  | .deleteFormOp i => (delete_expense i t).2
  | .listOp => (read_expenses_api t).2
  | .rootOp => (read_root t).2
  | .getFormOp i => (update_expense_form i t).2
  | .totalOp d => (total_expenses_api d t).2

/-- The table after serving a sequence of requests. -/
def applyOps (ops : List Op) (t : Table) : Table := ops.foldl applyOp t

/-- All three value columns of the row are populated. -/
def Populated (e : ExpenseRow) : Prop :=
  e.description.isSome = true ∧ e.amount.isSome = true ∧ e.date.isSome = true

/-- The data-model invariant: pairwise distinct ids and every row
populated. -/
def Invariant (t : Table) : Prop :=
  (tableIds t).Nodup ∧ ∀ e ∈ t, Populated e

/-! ### Basic lemmas about the storage model -/

theorem le_foldrMax {l : List Nat} {x : Nat} (hx : x ∈ l) :
    x ≤ l.foldr max 0 := by
  induction l with
  | nil => cases hx
  | cons a l ih =>
    rcases List.mem_cons.mp hx with h | h
    · subst h; exact le_max_left _ _
    · exact le_trans (ih h) (le_max_right _ _)

theorem id_lt_nextId {t : Table} {e : ExpenseRow} (he : e ∈ t) :
    e.id < nextId t :=
  Nat.lt_succ_of_le (le_foldrMax (List.mem_map_of_mem ExpenseRow.id he))

theorem queryFirstById_nil (i : Nat) : queryFirstById i [] = none := rfl

theorem queryFirstById_cons (i : Nat) (e : ExpenseRow) (es : Table) :
    queryFirstById i (e :: es) =
      if e.id == i then some e else queryFirstById i es := by
  by_cases h : e.id = i
  · simp [queryFirstById, List.filter_cons, h]
  · simp [queryFirstById, List.filter_cons, h]

theorem query_none_of_forall {i : Nat} {t : Table}
    (h : ∀ e ∈ t, e.id ≠ i) : queryFirstById i t = none := by
  induction t with
  | nil => rfl
  | cons e es ih =>
    rw [queryFirstById_cons]
    have he : e.id ≠ i := h e (List.mem_cons_self e es)
    simp only [beq_eq_false_iff_ne.mpr he, if_false]
    exact ih (fun x hx => h x (List.mem_cons_of_mem e hx))

theorem forall_ne_of_query_none {i : Nat} {t : Table}
    (h : queryFirstById i t = none) : ∀ e ∈ t, e.id ≠ i := by
  induction t with
  | nil => intro e he; cases he
  | cons e es ih =>
    rw [queryFirstById_cons] at h
    by_cases hc : e.id = i
    · simp [hc] at h
    · intro x hx
      rcases List.mem_cons.mp hx with h' | h'
      · subst h'; exact hc
      · exact ih (by simpa [hc] using h) x h'

theorem not_mem_ids_iff_forall {i : Nat} {t : Table} :
    i ∉ tableIds t ↔ ∀ e ∈ t, e.id ≠ i := by
  simp [tableIds]

theorem query_none_of_not_mem {i : Nat} {t : Table}
    (h : i ∉ tableIds t) : queryFirstById i t = none :=
  query_none_of_forall (not_mem_ids_iff_forall.mp h)

theorem query_some_mem {i : Nat} {t : Table} {row : ExpenseRow}
    (h : queryFirstById i t = some row) : row ∈ t ∧ row.id = i := by
  induction t with
  | nil => cases h
  | cons e es ih =>
    rw [queryFirstById_cons] at h
    by_cases hc : e.id = i
    · simp only [hc, beq_self_eq_true, if_true, Option.some.injEq] at h
      subst h
      exact ⟨List.mem_cons_self _ _, hc⟩
    · have h' := ih (by simpa [hc] using h)
      exact ⟨List.mem_cons_of_mem e h'.1, h'.2⟩

theorem query_concat_fresh {t : Table} {r : ExpenseRow}
    (h : ∀ e ∈ t, e.id ≠ r.id) :
    queryFirstById r.id (t ++ [r]) = some r := by
  induction t with
  | nil => simp [queryFirstById_cons]
  | cons e es ih =>
    rw [List.cons_append, queryFirstById_cons]
    have he : e.id ≠ r.id := h e (List.mem_cons_self e es)
    simp only [beq_eq_false_iff_ne.mpr he, if_false]
    exact ih (fun x hx => h x (List.mem_cons_of_mem e hx))

theorem setFirstById_cons (i : Nat) (p : ExpenseUpdate) (e : ExpenseRow)
    (es : Table) :
    setFirstById i p (e :: es) =
      if e.id == i then
        { e with description := some p.description, amount := some p.amount,
                 date := some p.date } :: es
      else e :: setFirstById i p es := rfl

theorem removeFirstById_cons (i : Nat) (e : ExpenseRow) (es : Table) :
    removeFirstById i (e :: es) =
      if e.id == i then es else e :: removeFirstById i es := rfl

theorem tableIds_setFirstById (i : Nat) (p : ExpenseUpdate) (t : Table) :
    tableIds (setFirstById i p t) = tableIds t := by
  induction t with
  | nil => rfl
  | cons e es ih =>
    rw [setFirstById_cons]
    by_cases hc : e.id = i
    · rw [if_pos (by simp [hc])]
      simp [tableIds]
    · rw [if_neg (by simp [hc])]
      simp only [tableIds, List.map_cons] at ih ⊢
      rw [ih]

theorem query_setFirstById_self {i : Nat} {p : ExpenseUpdate} {t : Table}
    {row : ExpenseRow} (h : queryFirstById i t = some row) :
    queryFirstById i (setFirstById i p t) =
      some { row with description := some p.description,
                      amount := some p.amount, date := some p.date } := by
  induction t with
  | nil => cases h
  | cons e es ih =>
    rw [queryFirstById_cons] at h
    by_cases hc : e.id = i
    · simp only [hc, beq_self_eq_true, if_true, Option.some.injEq] at h
      subst h
      rw [setFirstById_cons, if_pos (by simp [hc]), queryFirstById_cons]
      simp [hc]
    · rw [setFirstById_cons, if_neg (by simp [hc]), queryFirstById_cons,
        if_neg (by simp [hc])]
      exact ih (by simpa [hc] using h)

theorem removeFirstById_ids_sublist (i : Nat) (t : Table) :
    (tableIds (removeFirstById i t)).Sublist (tableIds t) := by
  induction t with
  | nil => exact List.Sublist.refl _
  | cons e es ih =>
    by_cases hc : e.id = i
    · simp only [removeFirstById, hc, beq_self_eq_true, if_true]
      exact List.sublist_cons_self _ _
    · simp only [removeFirstById, beq_eq_false_iff_ne.mpr hc, if_false]
      exact List.Sublist.cons₂ _ ih

theorem mem_of_mem_removeFirstById {i : Nat} {t : Table} {e : ExpenseRow}
    (h : e ∈ removeFirstById i t) : e ∈ t := by
  induction t with
  | nil => cases h
  | cons a es ih =>
    by_cases hc : a.id = i
    · simp only [removeFirstById, hc, beq_self_eq_true, if_true] at h
      exact List.mem_cons_of_mem a h
    · simp only [removeFirstById, beq_eq_false_iff_ne.mpr hc, if_false] at h
      rcases List.mem_cons.mp h with h' | h'
      · subst h'; exact List.mem_cons_self _ _
      · exact List.mem_cons_of_mem a (ih h')

theorem not_mem_ids_removeFirstById {i : Nat} {t : Table}
    (h : (tableIds t).Nodup) : i ∉ tableIds (removeFirstById i t) := by
  induction t with
  | nil => simp [removeFirstById, tableIds]
  | cons e es ih =>
    have h' : (tableIds es).Nodup := (List.nodup_cons.mp h).2
    by_cases hc : e.id = i
    · rw [removeFirstById_cons, if_pos (by simp [hc])]
      have hni := (List.nodup_cons.mp h).1
      rw [hc] at hni
      exact hni
    · rw [removeFirstById_cons, if_neg (by simp [hc])]
      simp only [tableIds, List.map_cons, List.mem_cons, not_or]
      exact ⟨fun heq => hc heq.symm, ih h'⟩

/-! ### Lemmas about the aggregate queries -/

theorem orZero_eq_getD (o : Option Rat) : orZero o = o.getD 0 := by
  cases o with
  | none => rfl
  | some x =>
    by_cases h : x = 0
    · simp [orZero, h]
    · simp [orZero, h]

theorem sqlSumAmount_getD (rows : List ExpenseRow) :
    (sqlSumAmount rows).getD 0 = (rows.filterMap ExpenseRow.amount).sum := by
  unfold sqlSumAmount
  by_cases h : (rows.filterMap ExpenseRow.amount).isEmpty
  · rw [List.isEmpty_iff] at h
    simp [h]
  · simp [h]

theorem read_root_total (t : Table) :
    (read_root t).1.2 = (t.filterMap ExpenseRow.amount).sum := by
  show orZero (sqlSumAmount t) = _
  rw [orZero_eq_getD, sqlSumAmount_getD]

theorem total_expenses_api_eq (today : CalDate) (t : Table) :
    (total_expenses_api today t).1 =
      ((t.filter (inMonth today)).filterMap ExpenseRow.amount).sum := by
  show orZero (sqlSumAmount (t.filter (inMonth today))) = _
  rw [orZero_eq_getD, sqlSumAmount_getD]

/-! ### Preservation of the data-model invariant -/

theorem nodup_concat {l : List Nat} {x : Nat} (h : l.Nodup) (hx : x ∉ l) :
    (l ++ [x]).Nodup := by
  induction l with
  | nil => simp
  | cons a l ih =>
    rcases List.nodup_cons.mp h with ⟨ha, hl⟩
    have hxl : x ∉ l := fun hm => hx (List.mem_cons_of_mem a hm)
    have hxa : x ≠ a := fun heq => hx (heq ▸ List.mem_cons_self a l)
    rw [List.cons_append]
    refine List.nodup_cons.mpr ⟨?_, ih hl hxl⟩
    intro hmem
    rcases List.mem_append.mp hmem with hm | hm
    · exact ha hm
    · exact hxa ((List.mem_singleton.mp hm).symm)

theorem nextId_not_mem (t : Table) : nextId t ∉ tableIds t := by
  intro hmem
  rcases List.mem_map.mp hmem with ⟨e, he, heq⟩
  exact absurd heq (Nat.ne_of_gt (id_lt_nextId he)).symm

theorem invariant_insert {t : Table} (p : ExpenseCreate)
    (h : Invariant t) :
    Invariant (t ++ [(⟨nextId t, some p.description, some p.amount,
                      some p.date⟩ : ExpenseRow)]) := by
  constructor
  · have : tableIds (t ++ [(⟨nextId t, some p.description, some p.amount,
        some p.date⟩ : ExpenseRow)]) = tableIds t ++ [nextId t] := by
      simp [tableIds]
    rw [this]
    exact nodup_concat h.1 (nextId_not_mem t)
  · intro e he
    rcases List.mem_append.mp he with hm | hm
    · exact h.2 e hm
    · rw [List.mem_singleton.mp hm]
      exact ⟨rfl, rfl, rfl⟩

theorem populated_setFirstById {t : Table} (i : Nat) (p : ExpenseUpdate)
    (h : ∀ e ∈ t, Populated e) :
    ∀ e ∈ setFirstById i p t, Populated e := by
  induction t with
  | nil => intro e he; cases he
  | cons a es ih =>
    intro e he
    rw [setFirstById_cons] at he
    by_cases hc : a.id = i
    · rw [if_pos (by simp [hc])] at he
      rcases List.mem_cons.mp he with h' | h'
      · rw [h']
        exact ⟨rfl, rfl, rfl⟩
      · exact h e (List.mem_cons_of_mem a h')
    · rw [if_neg (by simp [hc])] at he
      rcases List.mem_cons.mp he with h' | h'
      · rw [h']
        exact h a (List.mem_cons_self a es)
      · exact ih (fun x hx => h x (List.mem_cons_of_mem a hx)) e h'

theorem invariant_setFirstById {t : Table} (i : Nat) (p : ExpenseUpdate)
    (h : Invariant t) : Invariant (setFirstById i p t) := by
  constructor
  · rw [tableIds_setFirstById]
    exact h.1
  · exact populated_setFirstById i p h.2

theorem invariant_removeFirstById {t : Table} (i : Nat)
    (h : Invariant t) : Invariant (removeFirstById i t) := by
  constructor
  · exact h.1.sublist (removeFirstById_ids_sublist i t)
  · intro e he
    exact h.2 e (mem_of_mem_removeFirstById he)

theorem invariant_applyOp {t : Table} (o : Op) (h : Invariant t) :
    Invariant (applyOp t o) := by
  cases o with
  | createOp p => exact invariant_insert p h
  | addOp p => exact invariant_insert p h
  | updateApiOp i p =>
    show Invariant (update_expense_api i p t).2
    unfold update_expense_api
    cases hq : queryFirstById i t with
    | none => exact h
    | some e => exact invariant_setFirstById i p h
  | updateFormOp i p =>
    show Invariant (update_expense i p t).2
    unfold update_expense
    cases hq : queryFirstById i t with
    | none => exact h
    | some e => exact invariant_setFirstById i p h
  | deleteApiOp i =>
    show Invariant (delete_expense_api i t).2
    unfold delete_expense_api
    cases hq : queryFirstById i t with
    | none => exact h
    | some e => exact invariant_removeFirstById i h
  | deleteFormOp i =>
    show Invariant (delete_expense i t).2
    unfold delete_expense
    cases hq : queryFirstById i t with
    | none => exact h
    | some e => exact invariant_removeFirstById i h
  | listOp => exact h
  | rootOp => exact h
  | getFormOp i =>
    show Invariant (update_expense_form i t).2
    unfold update_expense_form
    cases hq : queryFirstById i t with
    | none => exact h
    | some e => exact h
  | totalOp d => exact h

theorem invariant_applyOps (ops : List Op) {t : Table} (h : Invariant t) :
    Invariant (applyOps ops t) := by
  induction ops generalizing t with
  | nil => exact h
  | cons o os ih => exact ih (invariant_applyOp o h)

theorem invariant_empty : Invariant ([] : Table) := by
  exact ⟨List.nodup_nil, fun e he => absurd he (List.not_mem_nil e)⟩

/-! ### Lemmas about validation -/

theorem validate_error_of_parts {od oa odt : Option RawVal}
    (h : (∀ d, od ≠ some (.str d)) ∨ oa.bind amountVal = none
         ∨ odt.bind dateVal = none) :
    validate ⟨od, oa, odt⟩ = .error 422 := by
  unfold validate
  rcases od with _ | v
  · rfl
  · rcases v with d | q
    · rcases h with hbad | h2 | h3
      · exact absurd rfl (hbad d)
      · rw [show RawInput.amount ⟨some (.str d), oa, odt⟩ = oa from rfl, h2]
      · rw [show RawInput.date ⟨some (.str d), oa, odt⟩ = odt from rfl, h3]
        cases hq : oa.bind amountVal <;> rfl
    · rfl

theorem validate_malformed {r : RawInput} (h : Malformed r) :
    validate r = .error 422 := by
  obtain ⟨od, oa, odt⟩ := r
  apply validate_error_of_parts
  rcases h with (hd | ha | hdt) | ⟨s, ha, hp⟩ | ⟨q, hdt⟩ | ⟨s, hdt, hp⟩
  · replace hd : od = none := hd
    subst hd
    exact Or.inl (fun d hcontra => by cases hcontra)
  · replace ha : oa = none := ha
    subst ha
    exact Or.inr (Or.inl rfl)
  · replace hdt : odt = none := hdt
    subst hdt
    exact Or.inr (Or.inr rfl)
  · replace ha : oa = some (.str s) := ha
    subst ha
    exact Or.inr (Or.inl hp)
  · replace hdt : odt = some (.num q) := hdt
    subst hdt
    exact Or.inr (Or.inr rfl)
  · replace hdt : odt = some (.str s) := hdt
    subst hdt
    exact Or.inr (Or.inr hp)

/-! ### The claims -/

/-- C1: for every well-typed payload and every stored table, creating an
expense via `POST /api/expenses/` returns a record whose description,
amount and date equal the input, and whose id is freshly assigned by
storage: it differs from the id of every record present at the time of
the create. -/
theorem c1_create_returns_input_with_fresh_id (p : ExpenseCreate)
    (t : Table) :
    ∃ r : ExpenseRead, (create_expense_api p t).1 = some r
      ∧ r.description = p.description ∧ r.amount = p.amount
      ∧ r.date = p.date ∧ r.id ∉ tableIds t :=
  ⟨⟨nextId t, p.description, p.amount, p.date⟩, rfl, rfl, rfl, rfl,
   nextId_not_mem t⟩

/-- C2: after any sequence of requests starting from the empty table, the
all-time total rendered by the list page equals the arithmetic sum of the
amounts of the rows then in the table (the created expenses not yet
deleted), and the total over the empty table is 0. -/
theorem c2_sum_all (ops : List Op) :
    (read_root (applyOps ops [])).1.2
        = ((applyOps ops []).filterMap ExpenseRow.amount).sum
    ∧ (read_root ([] : Table)).1.2 = 0 :=
  ⟨read_root_total _, rfl⟩

/-- C3: for every stored table and every current date,
`GET /api/expenses/total` returns the sum of `amount` over exactly the
rows whose date has the calendar month and year of the current date,
and returns 0 when no row matches. -/
theorem c3_total_current_month (today : CalDate) (t : Table) :
    (total_expenses_api today t).1
        = ((t.filter (inMonth today)).filterMap ExpenseRow.amount).sum
    ∧ (t.filter (inMonth today) = [] →
        (total_expenses_api today t).1 = 0) := by
  refine ⟨total_expenses_api_eq today t, fun h => ?_⟩
  rw [total_expenses_api_eq, h]
  rfl

theorem c3_total_current_month_witness :
    ([] : Table).filter (inMonth ⟨2025, 10, 1⟩) = []
    ∧ (total_expenses_api ⟨2025, 10, 1⟩ []).1 = 0 :=
  ⟨rfl, (c3_total_current_month ⟨2025, 10, 1⟩ []).2 rfl⟩

/-- C4: round-trip — after a create, a get of the assigned id yields a
record with exactly the created field values; after an update addressed
to an existing id, a get of that id yields exactly the three new values
(a full replacement, not a merge with the old values). -/
theorem c4_roundtrip (p q : ExpenseCreate) (i : Nat) (t : Table)
    (row : ExpenseRow) (h : queryFirstById i t = some row) :
    queryFirstById (nextId t) (create_expense_api p t).2
      = some ⟨nextId t, some p.description, some p.amount, some p.date⟩
    ∧ queryFirstById i (update_expense_api i q t).2
      = some { row with
               description := some q.description,
               amount := some q.amount,
               date := some q.date } := by
  constructor
  · exact query_concat_fresh
      (r := ⟨nextId t, some p.description, some p.amount, some p.date⟩)
      (fun e he => Nat.ne_of_lt (id_lt_nextId he))
  · have h2 : (update_expense_api i q t).2 = setFirstById i q t := by
      unfold update_expense_api
      rw [h]
    rw [h2]
    exact query_setFirstById_self h

theorem c4_roundtrip_witness :
    queryFirstById 1
        [(⟨1, some "Old", some 5, some ⟨2025, 1, 1⟩⟩ : ExpenseRow)]
      = some ⟨1, some "Old", some 5, some ⟨2025, 1, 1⟩⟩
    ∧ (queryFirstById (nextId [(⟨1, some "Old", some 5,
          some ⟨2025, 1, 1⟩⟩ : ExpenseRow)])
        (create_expense_api ⟨"Test Expense", 100, ⟨2025, 10, 1⟩⟩
          [⟨1, some "Old", some 5, some ⟨2025, 1, 1⟩⟩]).2
      = some ⟨2, some "Test Expense", some 100, some ⟨2025, 10, 1⟩⟩
    ∧ queryFirstById 1
        (update_expense_api 1 ⟨"Updated", 150, ⟨2025, 10, 2⟩⟩
          [⟨1, some "Old", some 5, some ⟨2025, 1, 1⟩⟩]).2
      = some ⟨1, some "Updated", some 150, some ⟨2025, 10, 2⟩⟩) :=
  ⟨rfl, c4_roundtrip ⟨"Test Expense", 100, ⟨2025, 10, 1⟩⟩
    ⟨"Updated", 150, ⟨2025, 10, 2⟩⟩ 1
    [⟨1, some "Old", some 5, some ⟨2025, 1, 1⟩⟩]
    ⟨1, some "Old", some 5, some ⟨2025, 1, 1⟩⟩ rfl⟩

/-- C5: for every stored table and every id not present in it, an update
addressed to that id — via `PUT /api/expenses/{id}` or
`POST /update/{id}` — fails with HTTP 404 and leaves the table exactly
unchanged. -/
theorem c5_update_missing_id (i : Nat) (q : ExpenseUpdate) (t : Table)
    (h : i ∉ tableIds t) :
    update_expense_api i q t = (.error 404, t)
    ∧ update_expense i q t = (.error 404, t) := by
  have hq := query_none_of_not_mem h
  constructor
  · unfold update_expense_api
    rw [hq]
  · unfold update_expense
    rw [hq]

theorem c5_update_missing_id_witness :
    (7 : Nat) ∉ tableIds ([] : Table)
    ∧ update_expense_api 7 ⟨"X", 1, ⟨2025, 1, 1⟩⟩ [] = (.error 404, [])
    ∧ update_expense 7 ⟨"X", 1, ⟨2025, 1, 1⟩⟩ [] = (.error 404, []) := by
  have h : (7 : Nat) ∉ tableIds ([] : Table) := by simp [tableIds]
  exact ⟨h, (c5_update_missing_id 7 ⟨"X", 1, ⟨2025, 1, 1⟩⟩ [] h).1,
    (c5_update_missing_id 7 ⟨"X", 1, ⟨2025, 1, 1⟩⟩ [] h).2⟩

/-- C6: for every stored table with pairwise distinct ids containing a
record with a given id, deleting that id succeeds; afterwards the id is
absent from the table behind the list endpoint and a get of the id finds
nothing; a second delete of the same id yields 404 and changes
nothing. -/
theorem c6_delete_then_absent (i : Nat) (t : Table) (row : ExpenseRow)
    (hnd : (tableIds t).Nodup) (h : queryFirstById i t = some row) :
    (delete_expense_api i t).1 = .ok "Expense deleted"
    ∧ i ∉ tableIds (delete_expense_api i t).2
    ∧ queryFirstById i (delete_expense_api i t).2 = none
    ∧ delete_expense_api i (delete_expense_api i t).2
        = (.error 404, (delete_expense_api i t).2) := by
  have h2 : delete_expense_api i t
      = (.ok "Expense deleted", removeFirstById i t) := by
    unfold delete_expense_api
    rw [h]
  rw [h2]
  have hni : i ∉ tableIds (removeFirstById i t) :=
    not_mem_ids_removeFirstById hnd
  have hqn : queryFirstById i (removeFirstById i t) = none :=
    query_none_of_not_mem hni
  refine ⟨rfl, hni, hqn, ?_⟩
  unfold delete_expense_api
  rw [hqn]

theorem c6_delete_then_absent_witness :
    (tableIds [(⟨1, some "A", some 3, some ⟨2025, 9, 9⟩⟩ : ExpenseRow)]).Nodup
    ∧ queryFirstById 1 [(⟨1, some "A", some 3, some ⟨2025, 9, 9⟩⟩ : ExpenseRow)]
        = some ⟨1, some "A", some 3, some ⟨2025, 9, 9⟩⟩
    ∧ ((delete_expense_api 1
          [(⟨1, some "A", some 3, some ⟨2025, 9, 9⟩⟩ : ExpenseRow)]).1
        = .ok "Expense deleted"
    ∧ (1 : Nat) ∉ tableIds (delete_expense_api 1
          [(⟨1, some "A", some 3, some ⟨2025, 9, 9⟩⟩ : ExpenseRow)]).2
    ∧ queryFirstById 1 (delete_expense_api 1
          [(⟨1, some "A", some 3, some ⟨2025, 9, 9⟩⟩ : ExpenseRow)]).2 = none
    ∧ delete_expense_api 1 (delete_expense_api 1
          [(⟨1, some "A", some 3, some ⟨2025, 9, 9⟩⟩ : ExpenseRow)]).2
        = (.error 404, (delete_expense_api 1
          [(⟨1, some "A", some 3, some ⟨2025, 9, 9⟩⟩ : ExpenseRow)]).2)) := by
  have hnd : (tableIds
      [(⟨1, some "A", some 3, some ⟨2025, 9, 9⟩⟩ : ExpenseRow)]).Nodup := by
    simp [tableIds]
  exact ⟨hnd, rfl, c6_delete_then_absent 1
    [⟨1, some "A", some 3, some ⟨2025, 9, 9⟩⟩]
    ⟨1, some "A", some 3, some ⟨2025, 9, 9⟩⟩ hnd rfl⟩

/-- C7: every malformed write-request body — a required field missing, a
non-numeric amount, or an unparseable date, in JSON or form fields — is
rejected by the validation layer with a 422 client error and the stored
table is left exactly unchanged, for each of the four body-carrying
write endpoints. -/
theorem c7_malformed_rejected (r : RawInput) (t : Table) (i : Nat)
    (h : Malformed r) :
    create_expense_api_raw r t = (.error 422, t)
    ∧ add_expense_raw r t = (.error 422, t)
    ∧ update_expense_api_raw i r t = (.error 422, t)
    ∧ update_expense_raw i r t = (.error 422, t)
    ∧ 400 ≤ 422 ∧ 422 < 500 := by
  have hv := validate_malformed h
  refine ⟨?_, ?_, ?_, ?_, by norm_num, by norm_num⟩
  · unfold create_expense_api_raw
    rw [hv]
  · unfold add_expense_raw
    rw [hv]
  · unfold update_expense_api_raw
    rw [hv]
  · unfold update_expense_raw
    rw [hv]

theorem c7_malformed_rejected_witness :
    Malformed ⟨some (.str "Lunch"), some (.str "abc"),
      some (.str "2025-10-01")⟩
    ∧ (create_expense_api_raw ⟨some (.str "Lunch"), some (.str "abc"),
          some (.str "2025-10-01")⟩ [] = (.error 422, [])
    ∧ add_expense_raw ⟨some (.str "Lunch"), some (.str "abc"),
          some (.str "2025-10-01")⟩ [] = (.error 422, [])
    ∧ update_expense_api_raw 1 ⟨some (.str "Lunch"), some (.str "abc"),
          some (.str "2025-10-01")⟩ [] = (.error 422, [])
    ∧ update_expense_raw 1 ⟨some (.str "Lunch"), some (.str "abc"),
          some (.str "2025-10-01")⟩ [] = (.error 422, [])
    ∧ 400 ≤ 422 ∧ 422 < 500) := by
  have hm : Malformed ⟨some (.str "Lunch"), some (.str "abc"),
      some (.str "2025-10-01")⟩ :=
    Or.inr (Or.inl ⟨"abc", rfl, rfl⟩)
  exact ⟨hm, c7_malformed_rejected _ [] 1 hm⟩

/-- C8: every table reachable from the empty table by any sequence of
requests satisfies the data-model invariant — pairwise distinct ids and
all three value columns populated in every row. -/
theorem c8_invariant_reachable (ops : List Op) :
    Invariant (applyOps ops []) :=
  invariant_applyOps ops invariant_empty

/-- C9: every read endpoint — the list page, the JSON list, the
current-month total, and the pre-filled update form — leaves the stored
table exactly unchanged. -/
theorem c9_reads_pure (t : Table) (i : Nat) (today : CalDate) :
    (read_root t).2 = t ∧ (read_expenses_api t).2 = t
    ∧ (total_expenses_api today t).2 = t
    ∧ (update_expense_form i t).2 = t := by
  refine ⟨rfl, rfl, rfl, ?_⟩
  unfold update_expense_form
  cases hq : queryFirstById i t <;> rfl

/-- C10: for every stored table and every id not present in it, a delete
addressed to that id — via `DELETE /api/expenses/{id}` or
`POST /delete/{id}` — fails with HTTP 404 and leaves the table exactly
unchanged. -/
theorem c10_delete_missing_id (i : Nat) (t : Table)
    (h : i ∉ tableIds t) :
    delete_expense_api i t = (.error 404, t)
    ∧ delete_expense i t = (.error 404, t) := by
  have hq := query_none_of_not_mem h
  constructor
  · unfold delete_expense_api
    rw [hq]
  · unfold delete_expense
    rw [hq]

theorem c10_delete_missing_id_witness :
    (7 : Nat) ∉ tableIds [(⟨1, some "A", some 3,
        some ⟨2025, 9, 9⟩⟩ : ExpenseRow)]
    ∧ delete_expense_api 7 [(⟨1, some "A", some 3,
        some ⟨2025, 9, 9⟩⟩ : ExpenseRow)]
      = (.error 404, [⟨1, some "A", some 3, some ⟨2025, 9, 9⟩⟩])
    ∧ delete_expense 7 [(⟨1, some "A", some 3,
        some ⟨2025, 9, 9⟩⟩ : ExpenseRow)]
      = (.error 404, [⟨1, some "A", some 3, some ⟨2025, 9, 9⟩⟩]) := by
  have h : (7 : Nat) ∉ tableIds [(⟨1, some "A", some 3,
      some ⟨2025, 9, 9⟩⟩ : ExpenseRow)] := by
    simp [tableIds]
  exact ⟨h, (c10_delete_missing_id 7 _ h).1, (c10_delete_missing_id 7 _ h).2⟩

end ExpenseTracker
